import Mathlib

/-!
Shallow embedding of the jobpop job-lifecycle and ledger subsystem.

The definitions below translate, structure by structure and branch by branch,
the Mongoose models (`Job`, `User`, `Transaction`) and the Express route
handlers for applications, payments, job updates and ratings.  The document
store is modelled as a `DB` record holding lists of documents; each route is a
pure function from a `DB` (plus request parameters and the authenticated
actor) to a response and an updated `DB`.  JavaScript numbers are modelled as
rationals (all amounts in the repository are exact decimal values), dates as
natural-number timestamps passed in explicitly as `now`, and Mongoose
ObjectIds as natural numbers.
-/

namespace JobPop

/-- Job.status enum: active, in_progress, completed, cancelled, expired. -/
inductive JobStatus where
  | active
  | in_progress
  | completed
  | cancelled
  | expired
deriving DecidableEq, Repr

/-- Application sub-document status enum. -/
inductive AppStatus where
  | pending
  | accepted
  | rejected
  | withdrawn
deriving DecidableEq, Repr

/-- Transaction.type enum. -/
inductive TxType where
  | earned
  | withdrawal
  | refund
  | bonus
  | fee
deriving DecidableEq, Repr

/-- Transaction.status enum. -/
inductive TxStatus where
  | pending
  | completed
  | failed
  | cancelled
deriving DecidableEq, Repr

/-- Job.payment.status enum. -/
inductive PaymentStatus where
  | pending
  | paid
  | disputed
  | refunded
deriving DecidableEq, Repr

/-- One element of Job.applications: worker ref, status, message, proposedPay,
appliedAt, plus the generated subdocument _id used by `applications.id(...)`. -/
structure Application where
  id : Nat
  worker : Nat
  status : AppStatus
  message : Option String
  proposedPay : Option ℚ
  appliedAt : Nat
deriving DecidableEq, Repr

/-- A rating sub-record {rating, review, ratedAt}; absence is modelled as
`none` (the code tests truthiness of `.rating`, and a stored rating is always
between 1 and 5, hence truthy). -/
structure RatingRec where
  rating : Nat
  review : Option String
  ratedAt : Nat
deriving DecidableEq, Repr

/-- Job.completion sub-record. -/
structure Completion where
  startedAt : Option Nat
  completedAt : Option Nat
  workerRating : Option RatingRec
  employerRating : Option RatingRec
deriving DecidableEq, Repr

/-- Job.payment sub-record. -/
structure JobPayment where
  status : PaymentStatus
  paidAt : Option Nat
  amount : Option ℚ
  transactionId : Option Nat
deriving DecidableEq, Repr

/-- Job.pay sub-record (the pay.type field plays no role in the claims and is
carried as a plain string). -/
structure Pay where
  amount : ℚ
  currency : String
deriving DecidableEq, Repr

/-- The Job document, restricted to the fields the lifecycle and ledger code
reads or writes (title/companyName are kept because the completion payment
uses them in the transaction description). -/
structure Job where
  id : Nat
  title : String
  companyName : String
  employer : Nat
  pay : Pay
  status : JobStatus
  applications : List Application
  selectedWorker : Option Nat
  completion : Completion
  payment : JobPayment
  applicationsCount : Nat
  expiresAt : Nat
deriving DecidableEq, Repr

/-- One element of User.paymentMethods. -/
structure PaymentMethod where
  id : Nat
  name : String
  isDefault : Bool
deriving DecidableEq, Repr

/-- User.wallet sub-record. -/
structure Wallet where
  balance : ℚ
  currency : String
deriving DecidableEq, Repr

/-- User.stats sub-record (fields touched by the lifecycle/ratings code). -/
structure Stats where
  completedJobs : Nat
  totalEarnings : ℚ
  averageRating : ℚ
  totalReviews : Nat
deriving DecidableEq, Repr

/-- The User document, restricted to the fields the subsystem touches. -/
structure User where
  id : Nat
  wallet : Wallet
  paymentMethods : List PaymentMethod
  stats : Stats
deriving DecidableEq, Repr

/-- The Transaction (ledger entry) document. -/
structure Transaction where
  id : Nat
  user : Nat
  type : TxType
  amount : ℚ
  currency : String
  description : String
  job : Option Nat
  paymentMethod : Option Nat
  status : TxStatus
  processedAt : Option Nat
  failedAt : Option Nat
  failureReason : Option String
deriving DecidableEq, Repr

/-- The document store: one collection per model, plus a fresh-id counter
standing in for ObjectId generation. -/
structure DB where
  users : List User
  jobs : List Job
  transactions : List Transaction
  nextId : Nat
deriving DecidableEq, Repr

/-- findById on the users collection. -/
def DB.findUser (db : DB) (userId : Nat) : Option User :=
  db.users.find? (fun u => decide (u.id = userId))

/-- findById on the jobs collection. -/
def DB.findJob (db : DB) (jobId : Nat) : Option Job :=
  db.jobs.find? (fun j => decide (j.id = jobId))

/-- findById on the transactions collection. -/
def DB.findTransaction (db : DB) (txId : Nat) : Option Transaction :=
  db.transactions.find? (fun t => decide (t.id = txId))

/-- document.save() for a user: persist the in-memory document over the stored
one with the same _id. -/
def DB.updateUser (db : DB) (u : User) : DB :=
  { db with users := db.users.map (fun x => if x.id = u.id then u else x) }

/-- document.save() for a job. -/
def DB.updateJob (db : DB) (j : Job) : DB :=
  { db with jobs := db.jobs.map (fun x => if x.id = j.id then j else x) }

/-- document.save() for a transaction. -/
def DB.updateTransaction (db : DB) (t : Transaction) : DB :=
  { db with transactions := db.transactions.map (fun x => if x.id = t.id then t else x) }

/-! ## Job model methods (src Job schema) -/

/-- Virtual isExpired: `new Date() > this.expiresAt`. -/
def Job.isExpired (job : Job) (now : Nat) : Bool :=
  now > job.expiresAt

/-- `applications.id(applicationId)`: look up an embedded application by its
subdocument _id. -/
def Job.findApplication (job : Job) (applicationId : Nat) : Option Application :=
  job.applications.find? (fun a => decide (a.id = applicationId))

/-- jobSchema.methods.canApply: active, not expired, not the employer, and no
existing application by this user — of any status. -/
def Job.canApply (job : Job) (userId : Nat) (now : Nat) : Bool :=
  if job.status ≠ JobStatus.active then false
  else if job.isExpired now then false
  else if job.employer = userId then false
  else (job.applications.find? (fun app => decide (app.worker = userId))).isNone

/-- jobSchema.methods.apply: guard on canApply, push a pending application,
set applicationsCount to the array length.  `appId` is the generated
subdocument id. -/
def Job.applyForJob (job : Job) (userId : Nat) (message : Option String)
    (proposedPay : Option ℚ) (now : Nat) (appId : Nat) : Except String Job :=
  if ¬ job.canApply userId now then
    Except.error "Cannot apply for this job"
  else
    let apps := job.applications ++
      [{ id := appId, worker := userId, status := AppStatus.pending,
         message := message, proposedPay := proposedPay, appliedAt := now }]
    Except.ok { job with applications := apps, applicationsCount := apps.length }

/-- jobSchema.methods.acceptApplication: no status check on the application or
the job; sets the application accepted, selectedWorker, and status
in_progress. -/
def Job.acceptApplication (job : Job) (applicationId : Nat) : Except String Job :=
  match job.findApplication applicationId with
  | none => Except.error "Application not found"
  | some application =>
      Except.ok { job with
        applications := job.applications.map
          (fun a => if a.id = applicationId then { a with status := AppStatus.accepted } else a),
        selectedWorker := some application.worker,
        status := JobStatus.in_progress }

/-! ## Transaction model statics/methods (src/backend/src/models/Transaction.js) -/

/-- Transaction.getUserBalance: sum of amounts over the user's stored entries
with status completed. -/
def getUserBalance (db : DB) (userId : Nat) : ℚ :=
  ((db.transactions.filter
      (fun t => decide (t.user = userId) && decide (t.status = TxStatus.completed))).map
    (fun t => t.amount)).sum

/-- The argument record of Transaction.createTransaction. -/
structure TxData where
  user : Nat
  type : TxType
  amount : ℚ
  currency : String
  description : String
  job : Option Nat
  paymentMethod : Option Nat
  status : TxStatus
deriving DecidableEq, Repr

/-- Transaction.createTransaction: save the new entry first, then recompute
and persist the user's wallet balance from the stored entries (which now
include the new one). -/
def createTransaction (db : DB) (data : TxData) : Transaction × DB :=
  let t : Transaction :=
    { id := db.nextId, user := data.user, type := data.type, amount := data.amount,
      currency := data.currency, description := data.description, job := data.job,
      paymentMethod := data.paymentMethod, status := data.status,
      processedAt := none, failedAt := none, failureReason := none }
  let db1 : DB := { db with transactions := db.transactions ++ [t], nextId := db.nextId + 1 }
  match db1.findUser data.user with
  | some user =>
      let balance := getUserBalance db1 data.user
      (t, db1.updateUser { user with wallet := { user.wallet with balance := balance } })
  | none => (t, db1)

/-- transactionSchema.methods.process: the status change to completed is made
on the in-memory document, the balance is recomputed from the *stored*
entries (where the entry still has its old status), the user is saved, and
only then is the entry itself saved.  The recomputed balance therefore does
not include this entry. -/
def processTransaction (db : DB) (t : Transaction) (now : Nat) : DB :=
  let db1 :=
    match db.findUser t.user with
    | some user =>
        db.updateUser { user with wallet := { user.wallet with balance := getUserBalance db t.user } }
    | none => db
  db1.updateTransaction { t with status := TxStatus.completed, processedAt := some now }

/-- transactionSchema.methods.fail: set failed/failedAt/failureReason and
save; the balance is not touched. -/
def failTransaction (db : DB) (t : Transaction) (now : Nat) (reason : String) : DB :=
  db.updateTransaction { t with status := TxStatus.failed, failedAt := some now,
                                failureReason := some reason }

/-! ## Route handlers

Each handler returns the HTTP outcome together with the database state once
the request has settled.  Outcomes carry the response message so that the
different 400-level errors of one route stay distinguishable. -/

/-- HTTP outcome of a request.  `badRequest` is status 400 (validation and
state-conflict errors), `forbidden` 403, `notFound` 404, `serverError` 500. -/
inductive Resp where
  | ok (msg : String)
  | created (msg : String)
  | badRequest (msg : String)
  | forbidden (msg : String)
  | notFound (msg : String)
  | serverError (msg : String)
deriving DecidableEq, Repr

/-- POST /api/applications/:jobId — apply for a job.  The handler checks
canApply and then calls the model method (which re-checks it). -/
def applyRoute (db : DB) (jobId actor : Nat) (message : Option String)
    (proposedPay : Option ℚ) (now : Nat) : Resp × DB :=
  match db.findJob jobId with
  | none => (Resp.notFound "Job not found", db)
  | some job =>
      if ¬ job.canApply actor now then
        (Resp.badRequest "Cannot apply for this job", db)
      else
        match job.applyForJob actor message proposedPay now db.nextId with
        | Except.error _ => (Resp.badRequest "Cannot apply for this job", db)
        | Except.ok job1 =>
            let db1 := db.updateJob job1
            (Resp.created "Application submitted successfully",
             { db1 with nextId := db1.nextId + 1 })

/-- The action field of PUT /api/applications/:jobId/:applicationId. -/
inductive AppAction where
  | accept
  | reject
  | withdraw
deriving DecidableEq, Repr

/-- PUT /api/applications/:jobId/:applicationId — accept, reject or withdraw.
The accept branch checks owner and job-active; the reject branch checks owner
only; the withdraw branch checks applicant only.  No branch checks the
application's current status. -/
def updateApplicationRoute (db : DB) (jobId applicationId actor : Nat)
    (action : AppAction) (now : Nat) : Resp × DB :=
  match db.findJob jobId with
  | none => (Resp.notFound "Job not found", db)
  | some job =>
      match job.findApplication applicationId with
      | none => (Resp.notFound "Application not found", db)
      | some application =>
          match action with
          | AppAction.accept =>
              if job.employer ≠ actor then
                (Resp.forbidden "Only job owner can accept applications", db)
              else if job.status ≠ JobStatus.active then
                (Resp.badRequest "Cannot accept application for inactive job", db)
              else
                match job.acceptApplication applicationId with
                | Except.error _ => (Resp.notFound "Application not found", db)
                | Except.ok job1 =>
                    let job2 := { job1 with
                      status := JobStatus.in_progress,
                      completion := { job1.completion with startedAt := some now } }
                    (Resp.ok "Application accepted successfully", db.updateJob job2)
          | AppAction.reject =>
              if job.employer ≠ actor then
                (Resp.forbidden "Only job owner can reject applications", db)
              else
                let apps := job.applications.map
                  (fun a => if a.id = applicationId then { a with status := AppStatus.rejected } else a)
                let job1 := { job with applications := apps }
                (Resp.ok "Application rejected successfully", db.updateJob job1)
          | AppAction.withdraw =>
              if application.worker ≠ actor then
                (Resp.forbidden "Only applicant can withdraw their application", db)
              else
                let apps := job.applications.map
                  (fun a => if a.id = applicationId then { a with status := AppStatus.withdrawn } else a)
                let job1 := { job with applications := apps }
                (Resp.ok "Application withdrawn successfully", db.updateJob job1)

/-- DELETE /api/applications/:jobId — remove the caller's own application:
looked up by worker id, must be pending, then filtered out of the array and
applicationsCount reset to the new length. -/
def deleteApplicationRoute (db : DB) (jobId actor : Nat) : Resp × DB :=
  match db.findJob jobId with
  | none => (Resp.notFound "Job not found", db)
  | some job =>
      match job.applications.find? (fun a => decide (a.worker = actor)) with
      | none => (Resp.notFound "Application not found", db)
      | some userApplication =>
          if userApplication.status ≠ AppStatus.pending then
            (Resp.badRequest "Cannot withdraw application that is not pending", db)
          else
            let apps := job.applications.filter (fun a => decide (a.worker ≠ actor))
            let job1 := { job with applications := apps, applicationsCount := apps.length }
            (Resp.ok "Application withdrawn successfully", db.updateJob job1)

/-- POST /api/payments/complete-job/:jobId — complete an in_progress job and
pay the selected worker: job saved completed, one earned entry created at
pay.amount already completed, payment sub-record set to paid referencing the
entry, then the worker's stats incremented in a separate write.  If
selectedWorker is null the transaction save throws after the job was already
saved completed, and the catch-all returns 500. -/
def completeJobRoute (db : DB) (jobId actor now : Nat) : Resp × DB :=
  match db.findJob jobId with
  | none => (Resp.notFound "Job not found", db)
  | some job =>
      if job.employer ≠ actor then
        (Resp.forbidden "Only job owner can complete the job", db)
      else if job.status ≠ JobStatus.in_progress then
        (Resp.badRequest "Job must be in progress to complete", db)
      else
        let job1 := { job with
          status := JobStatus.completed,
          completion := { job.completion with completedAt := some now } }
        let db1 := db.updateJob job1
        match job.selectedWorker with
        | none => (Resp.serverError "Server error", db1)
        | some workerId =>
            let paymentAmount := job.pay.amount
            let td : TxData :=
              { user := workerId, type := TxType.earned, amount := paymentAmount,
                currency := job.pay.currency,
                description := job.title ++ " - " ++ job.companyName,
                job := some job.id, paymentMethod := none, status := TxStatus.completed }
            let r := createTransaction db1 td
            let job2 := { job1 with payment :=
              { status := PaymentStatus.paid, paidAt := some now,
                amount := some paymentAmount, transactionId := some r.1.id } }
            let db3 := r.2.updateJob job2
            let db4 :=
              match db3.findUser workerId with
              | some worker =>
                  db3.updateUser { worker with stats :=
                    { worker.stats with
                      completedJobs := worker.stats.completedJobs + 1,
                      totalEarnings := worker.stats.totalEarnings + paymentAmount } }
              | none => db3
            (Resp.ok "Job completed and payment processed successfully", db4)

/-- POST /api/payments/withdraw — gate on the validator (amount ≥ 1), then on
the cached wallet balance, then on the payment method existing, then create a
pending withdrawal entry with negated amount.  The delayed settlement
(setTimeout → process/fail) happens outside the request and is modelled by
`processTransaction`/`failTransaction` separately. -/
def withdrawRoute (db : DB) (actor : Nat) (amount : ℚ) (paymentMethodId : Nat) : Resp × DB :=
  if amount < 1 then (Resp.badRequest "Amount must be at least 1", db)
  else
    match db.findUser actor with
    | none => (Resp.serverError "Server error", db)
    | some user =>
        if user.wallet.balance < amount then
          (Resp.badRequest "Insufficient balance", db)
        else
          match user.paymentMethods.find? (fun m => decide (m.id = paymentMethodId)) with
          | none => (Resp.notFound "Payment method not found", db)
          | some paymentMethod =>
              let td : TxData :=
                { user := actor, type := TxType.withdrawal, amount := -amount,
                  currency := user.wallet.currency,
                  description := "Withdrawal to " ++ paymentMethod.name,
                  job := none, paymentMethod := some paymentMethodId,
                  status := TxStatus.pending }
              let r := createTransaction db td
              (Resp.ok "Withdrawal initiated successfully", r.2)

/-- The request body of PUT /api/jobs/:id, projected to the fields that bear
on the lifecycle invariants.  findByIdAndUpdate applies whatever schema paths
the body carries (runValidators keeps values inside the enums), so status and
selectedWorker can be written directly. -/
structure JobUpdate where
  status : Option JobStatus
  selectedWorker : Option Nat
deriving DecidableEq, Repr

/-- Application of a PUT /api/jobs/:id body to a job document. -/
def Job.applyUpdate (job : Job) (body : JobUpdate) : Job :=
  let j1 := match body.status with
    | some s => { job with status := s }
    | none => job
  match body.selectedWorker with
  | some w => { j1 with selectedWorker := some w }
  | none => j1

/-- PUT /api/jobs/:id — owner-only, job must currently be active, then the
body is applied wholesale via findByIdAndUpdate. -/
def updateJobRoute (db : DB) (jobId actor : Nat) (body : JobUpdate) : Resp × DB :=
  match db.findJob jobId with
  | none => (Resp.notFound "Job not found", db)
  | some job =>
      if job.employer ≠ actor then
        (Resp.forbidden "Not authorized to update this job", db)
      else if job.status ≠ JobStatus.active then
        (Resp.badRequest "Cannot update job that is not active", db)
      else
        (Resp.ok "Job updated successfully", db.updateJob (job.applyUpdate body))

/-- POST /api/jobs — create a job with the schema defaults for the lifecycle
fields: status active, empty applications, applicationsCount 0, no selected
worker, payment pending. -/
def createJobRoute (db : DB) (actor : Nat) (title companyName : String) (pay : Pay)
    (expiresAt : Nat) : Resp × DB :=
  let job : Job :=
    { id := db.nextId, title := title, companyName := companyName, employer := actor,
      pay := pay, status := JobStatus.active, applications := [],
      selectedWorker := none,
      completion := { startedAt := none, completedAt := none,
                      workerRating := none, employerRating := none },
      payment := { status := PaymentStatus.pending, paidAt := none,
                   amount := none, transactionId := none },
      applicationsCount := 0, expiresAt := expiresAt }
  (Resp.created "Job created successfully",
   { db with jobs := db.jobs ++ [job], nextId := db.nextId + 1 })

/-! ## Rating routes (src/backend/src/routes/ratings.js) -/

/-- JavaScript Math.round(x*10)/10 for the non-negative values arising here:
round half away from zero at one decimal. -/
def roundTo1 (x : ℚ) : ℚ :=
  ((⌊x * 10 + 1 / 2⌋ : ℤ) : ℚ) / 10

/-- The query `Job.find({selectedWorker, 'completion.workerRating.rating'
exists and non-null})` used by the PUT/DELETE recomputations. -/
def ratedWorkerJobs (db : DB) (workerId : Nat) : List Job :=
  db.jobs.filter
    (fun j => decide (j.selectedWorker = some workerId) && j.completion.workerRating.isSome)

/-- The `jobs.reduce((sum, j) => sum + j.completion.workerRating.rating, 0)`
of the recomputations. -/
def workerRatingSum (jobs : List Job) : ℚ :=
  (jobs.map (fun j => ((j.completion.workerRating.map (fun r => r.rating)).getD 0 : ℚ))).sum

/-- POST /api/ratings/:jobId — rate a completed job.  The rater must be the
employer or the selected worker; a second rating by the same side is
rejected.  When the employer rates, the rating is stored in
completion.employerRating and the worker's stats are updated incrementally
from the previously stored (already rounded) average; when the worker rates,
the rating is stored in completion.workerRating and no stats are touched.
With a null selectedWorker the unconditional `.toString()` throws, which the
catch-all turns into a 500. -/
def postRatingRoute (db : DB) (jobId actor : Nat) (rating : Nat)
    (review : Option String) (now : Nat) : Resp × DB :=
  if rating < 1 ∨ 5 < rating then
    (Resp.badRequest "Rating must be between 1 and 5", db)
  else
    match db.findJob jobId with
    | none => (Resp.notFound "Job not found", db)
    | some job =>
        if job.status ≠ JobStatus.completed then
          (Resp.badRequest "Can only rate completed jobs", db)
        else
          match job.selectedWorker with
          | none => (Resp.serverError "Server error", db)
          | some sw =>
              let isEmployer := job.employer = actor
              let isWorker := sw = actor
              if ¬ isEmployer ∧ ¬ isWorker then
                (Resp.forbidden "Not authorized to rate this job", db)
              else
                let existingRating :=
                  if isEmployer then job.completion.employerRating
                  else job.completion.workerRating
                if existingRating.isSome then
                  (Resp.badRequest "You have already rated this job", db)
                else
                  let r : RatingRec := { rating := rating, review := review, ratedAt := now }
                  let job1 :=
                    if isEmployer then
                      { job with completion := { job.completion with employerRating := some r } }
                    else
                      { job with completion := { job.completion with workerRating := some r } }
                  let db1 := db.updateJob job1
                  if isEmployer then
                    match db1.findUser sw with
                    | some worker =>
                        let totalRatings := worker.stats.totalReviews + 1
                        let totalRatingSum :=
                          worker.stats.averageRating * (worker.stats.totalReviews : ℚ) + (rating : ℚ)
                        let newAverageRating := totalRatingSum / (totalRatings : ℚ)
                        (Resp.ok "Rating submitted successfully",
                         db1.updateUser { worker with stats :=
                           { worker.stats with
                             averageRating := roundTo1 newAverageRating,
                             totalReviews := totalRatings } })
                    | none => (Resp.ok "Rating submitted successfully", db1)
                  else (Resp.ok "Rating submitted successfully", db1)

/-- PUT /api/ratings/:jobId — update an existing rating (no completed-status
check here).  After saving the job, the employer path recomputes the worker's
stats over the jobs matching `selectedWorker = worker` with a
completion.workerRating present — note this reads workerRating, not the
employerRating field the POST path writes.  JavaScript evaluates 0/0 to NaN;
in this model a division by zero evaluates to 0, which the theorems avoid by
keeping the recomputed set non-empty. -/
def putRatingRoute (db : DB) (jobId actor : Nat) (rating : Nat)
    (review : Option String) (now : Nat) : Resp × DB :=
  if rating < 1 ∨ 5 < rating then
    (Resp.badRequest "Rating must be between 1 and 5", db)
  else
    match db.findJob jobId with
    | none => (Resp.notFound "Job not found", db)
    | some job =>
        match job.selectedWorker with
        | none => (Resp.serverError "Server error", db)
        | some sw =>
            let isEmployer := job.employer = actor
            let isWorker := sw = actor
            if ¬ isEmployer ∧ ¬ isWorker then
              (Resp.forbidden "Not authorized to update rating for this job", db)
            else
              let existing :=
                if isEmployer then job.completion.employerRating
                else job.completion.workerRating
              match existing with
              | none => (Resp.badRequest "No existing rating to update", db)
              | some old =>
                  let r : RatingRec :=
                    { rating := rating,
                      review := match review with | some rv => some rv | none => old.review,
                      ratedAt := now }
                  let job1 :=
                    if isEmployer then
                      { job with completion := { job.completion with employerRating := some r } }
                    else
                      { job with completion := { job.completion with workerRating := some r } }
                  let db1 := db.updateJob job1
                  if isEmployer then
                    match db1.findUser sw with
                    | some worker =>
                        let ratedJobs := ratedWorkerJobs db1 sw
                        let totalRatings := ratedJobs.length
                        let newAverageRating := workerRatingSum ratedJobs / (totalRatings : ℚ)
                        (Resp.ok "Rating updated successfully",
                         db1.updateUser { worker with stats :=
                           { worker.stats with
                             averageRating := roundTo1 newAverageRating,
                             totalReviews := totalRatings } })
                    | none => (Resp.ok "Rating updated successfully", db1)
                  else (Resp.ok "Rating updated successfully", db1)

/-- DELETE /api/ratings/:jobId — clear one side's rating, then (employer
path) recompute over the same workerRating-based query, guarding the
zero-ratings case with averageRating = 0. -/
def deleteRatingRoute (db : DB) (jobId actor : Nat) : Resp × DB :=
  match db.findJob jobId with
  | none => (Resp.notFound "Job not found", db)
  | some job =>
      match job.selectedWorker with
      | none => (Resp.serverError "Server error", db)
      | some sw =>
          let isEmployer := job.employer = actor
          let isWorker := sw = actor
          if ¬ isEmployer ∧ ¬ isWorker then
            (Resp.forbidden "Not authorized to delete rating for this job", db)
          else
            let existing :=
              if isEmployer then job.completion.employerRating
              else job.completion.workerRating
            match existing with
            | none => (Resp.badRequest "No rating to delete", db)
            | some _ =>
                let job1 :=
                  if isEmployer then
                    { job with completion := { job.completion with employerRating := none } }
                  else
                    { job with completion := { job.completion with workerRating := none } }
                let db1 := db.updateJob job1
                if isEmployer then
                  match db1.findUser sw with
                  | some worker =>
                      let ratedJobs := ratedWorkerJobs db1 sw
                      let totalRatings := ratedJobs.length
                      let newAverage :=
                        if 0 < totalRatings then
                          roundTo1 (workerRatingSum ratedJobs / (totalRatings : ℚ))
                        else 0
                      (Resp.ok "Rating deleted successfully",
                       db1.updateUser { worker with stats :=
                         { worker.stats with
                           averageRating := newAverage,
                           totalReviews := totalRatings } })
                  | none => (Resp.ok "Rating deleted successfully", db1)
                else (Resp.ok "Rating deleted successfully", db1)

/-! ## Lifecycle operation steps

The invariant claims quantify over sequences of lifecycle operations; each
constructor wraps one route above. -/

/-- One job-lifecycle request. -/
inductive LifecycleOp where
  | createOp (actor : Nat) (title companyName : String) (pay : Pay) (expiresAt : Nat)
  | applyOp (jobId actor : Nat) (message : Option String) (proposedPay : Option ℚ) (now : Nat)
  | appActionOp (jobId applicationId actor : Nat) (action : AppAction) (now : Nat)
  | deleteAppOp (jobId actor : Nat)
  | completeOp (jobId actor now : Nat)

/-- The database after one lifecycle request settles. -/
def stepOp (db : DB) (op : LifecycleOp) : DB :=
  match op with
  | LifecycleOp.createOp actor title companyName pay expiresAt =>
      (createJobRoute db actor title companyName pay expiresAt).2
  | LifecycleOp.applyOp jobId actor message proposedPay now =>
      (applyRoute db jobId actor message proposedPay now).2
  | LifecycleOp.appActionOp jobId applicationId actor action now =>
      (updateApplicationRoute db jobId applicationId actor action now).2
  | LifecycleOp.deleteAppOp jobId actor =>
      (deleteApplicationRoute db jobId actor).2
  | LifecycleOp.completeOp jobId actor now =>
      (completeJobRoute db jobId actor now).2

/-- The database after a sequence of lifecycle requests. -/
def runOps (db : DB) (ops : List LifecycleOp) : DB :=
  ops.foldl stepOp db

/-- Spec invariant 2: selectedWorker is non-null iff status is in_progress or
completed. -/
abbrev swInv (job : Job) : Prop :=
  job.selectedWorker ≠ none ↔
    (job.status = JobStatus.in_progress ∨ job.status = JobStatus.completed)

/-- Spec invariant 1: applicationsCount equals the length of applications. -/
abbrev countInv (job : Job) : Prop :=
  job.applicationsCount = job.applications.length

/-! ## Store lemmas -/

@[simp] theorem updateJob_users (db : DB) (j : Job) : (db.updateJob j).users = db.users := rfl

@[simp] theorem updateJob_transactions (db : DB) (j : Job) :
    (db.updateJob j).transactions = db.transactions := rfl

@[simp] theorem updateJob_nextId (db : DB) (j : Job) : (db.updateJob j).nextId = db.nextId := rfl

@[simp] theorem updateUser_jobs (db : DB) (u : User) : (db.updateUser u).jobs = db.jobs := rfl

@[simp] theorem updateUser_transactions (db : DB) (u : User) :
    (db.updateUser u).transactions = db.transactions := rfl

@[simp] theorem updateUser_nextId (db : DB) (u : User) : (db.updateUser u).nextId = db.nextId := rfl

@[simp] theorem updateTransaction_users (db : DB) (t : Transaction) :
    (db.updateTransaction t).users = db.users := rfl

@[simp] theorem updateTransaction_jobs (db : DB) (t : Transaction) :
    (db.updateTransaction t).jobs = db.jobs := rfl

/-- The jobs collection is untouched by createTransaction. -/
@[simp] theorem createTransaction_jobs (db : DB) (td : TxData) :
    (createTransaction db td).2.jobs = db.jobs := by
  unfold createTransaction
  dsimp only
  split <;> rfl

/-- Replacing the document that a successful find? returned makes the same
find? return the replacement, provided the replacement keeps the id. -/
theorem find?_map_replace {α : Type} (idf : α → Nat) (l : List α) (i : Nat) (x x1 : α)
    (hx : l.find? (fun y => decide (idf y = i)) = some x) (hid : idf x1 = idf x) :
    (l.map (fun y => if idf y = idf x1 then x1 else y)).find? (fun y => decide (idf y = i)) =
      some x1 := by
  have hxi : idf x = i := by
    have := List.find?_some hx
    simpa using this
  induction l with
  | nil => simp at hx
  | cons a l ih =>
      by_cases ha : idf a = i
      · have hax : a = x := by
          have : (a :: l).find? (fun y => decide (idf y = i)) = some a := by
            simp [List.find?, ha]
          rw [this] at hx
          exact (Option.some.injEq _ _).mp hx
        subst hax
        simp [List.find?, hid, ha, hxi]
      · have hrec : l.find? (fun y => decide (idf y = i)) = some x := by
          simpa [List.find?, ha] using hx
        have ha1 : ¬ idf a = idf x1 := by
          rw [hid, hxi]; exact ha
        simp [List.find?, ha, ha1, ih hrec]

/-- Members of the collection after a replace-by-id save are the saved
document or prior members. -/
theorem mem_map_replace {α : Type} (idf : α → Nat) (l : List α) (x1 y : α)
    (hy : y ∈ l.map (fun z => if idf z = idf x1 then x1 else z)) : y = x1 ∨ y ∈ l := by
  rcases List.mem_map.mp hy with ⟨a, ha, hga⟩
  by_cases h : idf a = idf x1
  · left; rw [if_pos h] at hga; exact hga.symm
  · right; rw [if_neg h] at hga; rw [← hga]; exact ha

/-- findJob after saving a job with the found id. -/
theorem findJob_updateJob (db : DB) (i : Nat) (j j1 : Job)
    (hj : db.findJob i = some j) (hid : j1.id = j.id) :
    (db.updateJob j1).findJob i = some j1 := by
  unfold DB.findJob DB.updateJob at *
  exact find?_map_replace Job.id db.jobs i j j1 hj hid

/-- findUser after saving a user with the found id. -/
theorem findUser_updateUser (db : DB) (i : Nat) (u u1 : User)
    (hu : db.findUser i = some u) (hid : u1.id = u.id) :
    (db.updateUser u1).findUser i = some u1 := by
  unfold DB.findUser DB.updateUser at *
  exact find?_map_replace User.id db.users i u u1 hu hid

/-- A successful findJob pins the job's id. -/
theorem findJob_id (db : DB) (i : Nat) (j : Job) (hj : db.findJob i = some j) : j.id = i := by
  unfold DB.findJob at hj
  have := List.find?_some hj
  simpa using this

/-- A successful findUser pins the user's id. -/
theorem findUser_id (db : DB) (i : Nat) (u : User) (hu : db.findUser i = some u) : u.id = i := by
  unfold DB.findUser at hu
  have := List.find?_some hu
  simpa using this

/-- Replacing-by-id with a transformation that keeps ids: the find? that
returned a document now returns its transform. -/
theorem find?_map_modify {α : Type} (idf : α → Nat) (f : α → α)
    (hf : ∀ x, idf (f x) = idf x) (l : List α) (i : Nat) (x : α)
    (hx : l.find? (fun y => decide (idf y = i)) = some x) :
    (l.map (fun y => if idf y = i then f y else y)).find? (fun y => decide (idf y = i)) =
      some (f x) := by
  induction l with
  | nil => simp at hx
  | cons a l ih =>
      by_cases ha : idf a = i
      · have hax : a = x := by
          have : (a :: l).find? (fun y => decide (idf y = i)) = some a := by
            simp [List.find?, ha]
          rw [this] at hx
          exact (Option.some.injEq _ _).mp hx
        subst hax
        simp [List.find?, ha, hf]
      · have hrec : l.find? (fun y => decide (idf y = i)) = some x := by
          simpa [List.find?, ha] using hx
        simp [List.find?, ha, ih hrec]

/-- The entry created by createTransaction is the data record under the fresh
id, still unprocessed. -/
theorem createTransaction_fst (db : DB) (td : TxData) :
    (createTransaction db td).1 =
      { id := db.nextId, user := td.user, type := td.type, amount := td.amount,
        currency := td.currency, description := td.description, job := td.job,
        paymentMethod := td.paymentMethod, status := td.status,
        processedAt := none, failedAt := none, failureReason := none } := by
  unfold createTransaction
  dsimp only
  split <;> rfl

/-- createTransaction appends exactly its entry to the ledger. -/
theorem createTransaction_transactions (db : DB) (td : TxData) :
    (createTransaction db td).2.transactions =
      db.transactions ++ [(createTransaction db td).1] := by
  rw [createTransaction_fst]
  unfold createTransaction
  dsimp only
  split <;> rfl

/-- createTransaction leaves an existing user findable, with the same id and
stats (only the wallet balance is rewritten). -/
theorem createTransaction_findUser_stats (db : DB) (td : TxData) (u : User)
    (hu : db.findUser td.user = some u) :
    ∃ u1, (createTransaction db td).2.findUser td.user = some u1 ∧
      u1.stats = u.stats ∧ u1.id = u.id ∧ u1.paymentMethods = u.paymentMethods := by
  unfold createTransaction
  dsimp only
  split
  · rename_i user heq
    have huser : user = u := by
      have h2 : db.findUser td.user = some user := heq
      rw [hu] at h2
      exact ((Option.some.injEq _ _).mp h2).symm
    subst huser
    exact ⟨_, findUser_updateUser _ td.user user _ heq rfl, rfl, rfl, rfl⟩
  · rename_i heq
    have h2 : db.findUser td.user = none := heq
    rw [hu] at h2
    cases h2

/-- canApply characterized: active, unexpired, not the employer, and no
application sub-record by the user of any status. -/
theorem canApply_iff (job : Job) (w now : Nat) :
    job.canApply w now = true ↔
      (job.status = JobStatus.active ∧ job.isExpired now = false ∧ job.employer ≠ w ∧
        ∀ a ∈ job.applications, a.worker ≠ w) := by
  constructor
  · intro h
    unfold Job.canApply at h
    by_cases h1 : job.status = JobStatus.active
    · by_cases h2 : job.isExpired now
      · rw [if_neg (by simp [h1]), if_pos h2] at h; cases h
      · by_cases h3 : job.employer = w
        · rw [if_neg (by simp [h1]), if_neg h2, if_pos h3] at h; cases h
        · refine ⟨h1, by simpa using h2, h3, ?_⟩
          rw [if_neg (by simp [h1]), if_neg h2, if_neg h3] at h
          intro a ha haw
          have hnone := List.find?_eq_none.mp (Option.isNone_iff_eq_none.mp h) a ha
          simp [haw] at hnone
    · rw [if_pos (by simp [h1])] at h; cases h
  · rintro ⟨h1, h2, h3, h4⟩
    unfold Job.canApply
    rw [if_neg (by simp [h1]), if_neg (by simp [h2]), if_neg h3]
    refine Option.isNone_iff_eq_none.mpr (List.find?_eq_none.mpr ?_)
    intro a ha
    simp [h4 a ha]

/-- findJob only reads the jobs collection. -/
theorem findJob_congr (db1 db2 : DB) (i : Nat) (h : db1.jobs = db2.jobs) :
    db1.findJob i = db2.findJob i := by
  unfold DB.findJob
  rw [h]

@[simp] theorem findUser_updateJob (db : DB) (j : Job) (i : Nat) :
    (db.updateJob j).findUser i = db.findUser i := rfl

@[simp] theorem findJob_updateUser (db : DB) (u : User) (i : Nat) :
    (db.updateUser u).findJob i = db.findJob i := rfl

/-- createTransaction does not change job lookups. -/
@[simp] theorem createTransaction_findJob (db : DB) (td : TxData) (i : Nat) :
    (createTransaction db td).2.findJob i = db.findJob i := by
  unfold createTransaction
  dsimp only
  split <;> rfl

/-- If find? succeeds after a replace-by-id save, it succeeded before, and
the found document is the saved one or the one found before. -/
theorem find?_map_replace_some {α : Type} (idf : α → Nat) (c : Nat) (l : List α) (i : Nat)
    (x1 u1 : α)
    (h : (l.map (fun y => if idf y = c then x1 else y)).find?
          (fun y => decide (idf y = i)) = some u1)
    (hx1 : idf x1 = c) :
    ∃ u, l.find? (fun y => decide (idf y = i)) = some u ∧ (u1 = x1 ∨ u1 = u) := by
  induction l with
  | nil => simp at h
  | cons a l ih =>
      rw [List.map_cons] at h
      by_cases hc : idf a = c
      · rw [if_pos hc] at h
        by_cases hi : idf x1 = i
        · rw [List.find?_cons_of_pos _ (by simp [hi])] at h
          have hu1 : u1 = x1 := by
            injection h with h1
            exact h1.symm
          exact ⟨a, List.find?_cons_of_pos _ (by simp [hc, ← hx1, hi]), Or.inl hu1⟩
        · rw [List.find?_cons_of_neg _ (by simp [hi])] at h
          obtain ⟨u, hu, hor⟩ := ih h
          have hai : ¬ (idf a = i) := by rw [hc, ← hx1]; exact hi
          exact ⟨u, by rw [List.find?_cons_of_neg _ (by simp [hai])]; exact hu, hor⟩
      · rw [if_neg hc] at h
        by_cases hi : idf a = i
        · rw [List.find?_cons_of_pos _ (by simp [hi])] at h
          have hu1 : u1 = a := by
            injection h with h1
            exact h1.symm
          exact ⟨a, List.find?_cons_of_pos _ (by simp [hi]), Or.inr hu1⟩
        · rw [List.find?_cons_of_neg _ (by simp [hi])] at h
          obtain ⟨u, hu, hor⟩ := ih h
          exact ⟨u, by rw [List.find?_cons_of_neg _ (by simp [hi])]; exact hu, hor⟩

/-- If findUser succeeds after createTransaction, the user already existed,
with the same stats (createTransaction rewrites only the wallet balance). -/
theorem createTransaction_findUser_some (db : DB) (td : TxData) (i : Nat) (u1 : User)
    (h : (createTransaction db td).2.findUser i = some u1) :
    ∃ u, db.findUser i = some u ∧ u1.stats = u.stats := by
  revert h
  unfold createTransaction
  dsimp only
  split
  · rename_i user heq
    intro h
    have heq0 : db.findUser td.user = some user := heq
    unfold DB.findUser DB.updateUser at h
    dsimp only at h
    obtain ⟨u, hu, hor⟩ := find?_map_replace_some User.id user.id db.users i _ u1 h rfl
    cases hor with
    | inr h1 => exact ⟨u, hu, by rw [h1]⟩
    | inl h1 =>
        have huid : User.id user = td.user := findUser_id db td.user user heq0
        have hid1 : User.id u1 = i := by simpa using List.find?_some h
        have hit : i = td.user := by
          rw [← hid1, h1]
          exact huid
        have hu2 : db.findUser i = some user := by rw [hit]; exact heq0
        have huu : u = user := by
          have := hu2
          unfold DB.findUser at this
          rw [hu] at this
          exact (Option.some.injEq _ _).mp this
        refine ⟨u, hu, ?_⟩
        rw [h1, huu]
  · intro h
    exact ⟨u1, h, rfl⟩

/-- If findUser fails after createTransaction, it failed before. -/
theorem createTransaction_findUser_none (db : DB) (td : TxData) (i : Nat)
    (h : (createTransaction db td).2.findUser i = none) : db.findUser i = none := by
  revert h
  unfold createTransaction
  dsimp only
  split
  · rename_i user heq
    intro h
    unfold DB.findUser DB.updateUser at h
    dsimp only at h
    rw [List.find?_eq_none] at h
    unfold DB.findUser
    rw [List.find?_eq_none]
    intro y hy
    simp only [decide_eq_true_eq]
    intro hyi
    by_cases hc : y.id = user.id
    · have huseri : user.id = i := hc.symm.trans hyi
      exact (h _ (List.mem_map.mpr ⟨y, hy, rfl⟩)) (by rw [if_pos hc]; simp [huseri])
    · exact (h _ (List.mem_map.mpr ⟨y, hy, rfl⟩)) (by rw [if_neg hc]; simp [hyi])
  · intro h
    exact h

/-! ## Concrete fixtures for evaluated statements -/

/-- An application sub-document with the given id, worker and status. -/
def mkApplication (i w : Nat) (s : AppStatus) : Application :=
  { id := i, worker := w, status := s, message := none, proposedPay := none, appliedAt := 0 }

/-- A job document with the given id, employer, status and applications;
pay.amount 25, expiresAt 1000, no selected worker, applicationsCount kept in
sync. -/
def mkJob (i e : Nat) (s : JobStatus) (apps : List Application) : Job :=
  { id := i, title := "T", companyName := "C", employer := e,
    pay := { amount := 25, currency := "USD" }, status := s, applications := apps,
    selectedWorker := none,
    completion := { startedAt := none, completedAt := none,
                    workerRating := none, employerRating := none },
    payment := { status := PaymentStatus.pending, paidAt := none,
                 amount := none, transactionId := none },
    applicationsCount := apps.length, expiresAt := 1000 }

/-- A user document with the given id, balance and one payment method id 3. -/
def mkUser (i : Nat) (bal : ℚ) : User :=
  { id := i, wallet := { balance := bal, currency := "USD" },
    paymentMethods := [{ id := 3, name := "Visa", isDefault := true }],
    stats := { completedJobs := 0, totalEarnings := 0, averageRating := 0, totalReviews := 0 } }

/-- A completed earned entry of 250 for user 1. -/
def txEarned250 : Transaction :=
  { id := 1, user := 1, type := TxType.earned, amount := 250, currency := "USD",
    description := "earned", job := none, paymentMethod := none,
    status := TxStatus.completed, processedAt := none, failedAt := none, failureReason := none }

/-- A pending withdrawal entry of -50 for user 1. -/
def txPending50 : Transaction :=
  { id := 2, user := 1, type := TxType.withdrawal, amount := -50, currency := "USD",
    description := "withdrawal", job := none, paymentMethod := none,
    status := TxStatus.pending, processedAt := none, failedAt := none, failureReason := none }

/-- Ledger fixture: user 1 holds cached balance 250 matching one completed
earned entry of 250, and one pending withdrawal of -50 awaits settlement. -/
def dbLedger : DB :=
  { users := [mkUser 1 250], jobs := [], transactions := [txEarned250, txPending50], nextId := 10 }

/-! ## Claims -/

/-- C1: the spec requires that after any ledger write settles — in
particular after `process` marks a pending entry completed — the account's
cached wallet balance equals the sum of its completed entries.  The code
recomputes the balance from the stored entries *before* saving the entry's
new status, so after processing the pending -50 withdrawal the entry is
stored completed (completed sum 200) while the cached balance is still 250.
This contradicts the code's own intent (the recomputation exists precisely
to fold the settled entry in) and the spec's settlement test. -/
theorem c1_process_leaves_stale_balance :
    (((processTransaction dbLedger txPending50 99).findUser 1).map
        (fun u => u.wallet.balance) = some 250) ∧
    getUserBalance (processTransaction dbLedger txPending50 99) 1 = 200 ∧
    ((processTransaction dbLedger txPending50 99).findTransaction 2).map
        (fun t => t.status) = some TxStatus.completed := by
  norm_num +decide [processTransaction, dbLedger, txPending50, txEarned250, mkUser,
    getUserBalance, DB.findUser, DB.findTransaction, DB.updateUser, DB.updateTransaction,
    List.find?, List.filter]

/-- C2 counterexample: the claim says accepting succeeds only when the
target application has status pending, but the accept branch never checks
the application's status: accepting a *rejected* application on an active
job succeeds and marks it accepted. -/
theorem c2_accept_ignores_application_status :
    ((updateApplicationRoute
        { users := [], jobs := [mkJob 1 10 JobStatus.active [mkApplication 5 20 AppStatus.rejected]],
          transactions := [], nextId := 50 } 1 5 10 AppAction.accept 99).1
      = Resp.ok "Application accepted successfully") ∧
    (((updateApplicationRoute
        { users := [], jobs := [mkJob 1 10 JobStatus.active [mkApplication 5 20 AppStatus.rejected]],
          transactions := [], nextId := 50 } 1 5 10 AppAction.accept 99).2.findJob 1).map
        (fun j => ((j.findApplication 5).map (fun a => a.status), j.status, j.selectedWorker))
      = some (some AppStatus.accepted, JobStatus.in_progress, some 20)) := by
  norm_num +decide [updateApplicationRoute, mkJob, mkApplication, DB.findJob, DB.updateJob,
    Job.findApplication, Job.acceptApplication, List.find?]

/-- C3 counterexample: the claim says a worker whose only prior application
has status withdrawn may apply again, but canApply looks for *any*
application by the worker without filtering by status, so a retained
withdrawn application still blocks: canApply is false and the apply route
rejects. -/
theorem c3_withdrawn_application_still_blocks :
    ((mkJob 1 10 JobStatus.active [mkApplication 5 20 AppStatus.withdrawn]).canApply 20 0
      = false) ∧
    ((applyRoute
        { users := [], jobs := [mkJob 1 10 JobStatus.active [mkApplication 5 20 AppStatus.withdrawn]],
          transactions := [], nextId := 50 } 1 20 none none 0).1
      = Resp.badRequest "Cannot apply for this job") := by
  norm_num +decide [applyRoute, Job.canApply, Job.isExpired, Job.applyForJob, mkJob,
    mkApplication, DB.findJob, List.find?]

/-- C4 counterexample: the claim includes job update among the lifecycle
operations, but PUT /api/jobs/:id applies the body wholesale, so the
employer can set status in_progress on an active job with no selected
worker, breaking the iff invariant. -/
theorem c4_update_breaks_selectedWorker_invariant :
    (((updateJobRoute
        { users := [], jobs := [mkJob 1 10 JobStatus.active []], transactions := [], nextId := 50 }
        1 10 { status := some JobStatus.in_progress, selectedWorker := none }).2.findJob 1).map
        (fun j => (j.status, j.selectedWorker))
      = some (JobStatus.in_progress, none)) := by
  norm_num +decide [updateJobRoute, Job.applyUpdate, mkJob, DB.findJob, DB.updateJob,
    List.find?]

/-- C7 counterexample: the claim says withdrawing a non-pending application
is rejected with a state-conflict, but the PUT withdraw branch checks only
ownership: the applicant can withdraw an already *accepted* application and
it is marked withdrawn. -/
theorem c7_put_withdraw_ignores_status :
    ((updateApplicationRoute
        { users := [], jobs := [mkJob 1 10 JobStatus.active [mkApplication 5 20 AppStatus.accepted]],
          transactions := [], nextId := 50 } 1 5 20 AppAction.withdraw 99).1
      = Resp.ok "Application withdrawn successfully") ∧
    (((updateApplicationRoute
        { users := [], jobs := [mkJob 1 10 JobStatus.active [mkApplication 5 20 AppStatus.accepted]],
          transactions := [], nextId := 50 } 1 5 20 AppAction.withdraw 99).2.findJob 1).map
        (fun j => (j.findApplication 5).map (fun a => a.status))
      = some (some AppStatus.withdrawn)) := by
  norm_num +decide [updateApplicationRoute, mkJob, mkApplication, DB.findJob, DB.updateJob,
    Job.findApplication, List.find?]

/-- A completed job fixture with selected worker 1 for the rating scenario:
job id `i`, employer `e`. -/
def mkRatedJob (i e : Nat) : Job :=
  { mkJob i e JobStatus.completed [] with selectedWorker := some 1 }

/-- Rating fixture: worker 1 with zeroed stats; three completed jobs for
worker 1 with employers 2, 3, 4 and no ratings yet. -/
def dbRatings : DB :=
  { users := [{ id := 1, wallet := { balance := 0, currency := "USD" }, paymentMethods := [],
                stats := { completedJobs := 0, totalEarnings := 0,
                           averageRating := 0, totalReviews := 0 } }],
    jobs := [mkRatedJob 1 2, mkRatedJob 2 3, mkRatedJob 3 4],
    transactions := [], nextId := 60 }

/-- The rating scenario: worker 1 rates employer 4 on job 3 (stored in
completion.workerRating); employer 2 rates worker 1 with 5 on job 1 and
employer 3 rates worker 1 with 3 on job 2 (both stored in
completion.employerRating, stats updated incrementally to average 4.0 over
2 reviews); then employer 2 updates their rating on job 1 to 4. -/
def dbRatingsFinal : DB :=
  (putRatingRoute
    ((postRatingRoute
      ((postRatingRoute
        ((postRatingRoute dbRatings 3 1 2 none 10).2)
        1 2 5 none 11).2)
      2 3 3 none 12).2)
    1 2 4 none 13).2

/-- C6: the spec requires that after a rating update the rated worker's
stats equal the rounded mean (here (4+3)/2 = 3.5) and review count (here 2)
over the jobs where the worker was rated.  The POST path stores
employer-authored ratings in completion.employerRating and updates stats
from them, but the PUT path recomputes from completion.workerRating — a
different field, holding the rating worker 1 authored about an employer —
so after the update the stored stats are average 2.0 with 1 review instead
of 3.5 with 2.  The two paths contradict each other: the code cannot be
maintaining the stats invariant on both. -/
theorem c6_update_recomputes_from_wrong_field :
    ((dbRatingsFinal.findUser 1).map (fun u => (u.stats.averageRating, u.stats.totalReviews))
      = some (2, 1)) ∧
    ((dbRatingsFinal.findJob 1).map
        (fun j => (j.completion.employerRating).map (fun r => r.rating)) = some (some 4)) ∧
    ((dbRatingsFinal.findJob 2).map
        (fun j => (j.completion.employerRating).map (fun r => r.rating)) = some (some 3)) ∧
    roundTo1 (((4 : ℚ) + 3) / 2) = 7 / 2 := by
  norm_num +decide [dbRatingsFinal, dbRatings, postRatingRoute, putRatingRoute, mkRatedJob,
    mkJob, roundTo1, ratedWorkerJobs, workerRatingSum, DB.findJob, DB.findUser, DB.updateJob,
    DB.updateUser, List.find?, List.filter]

/-- C8: a withdrawal whose (valid, i.e. ≥ 1) amount exceeds the cached
wallet balance is rejected with the insufficient-balance error and the
database — in particular the ledger — is left unchanged; with sufficient
cached balance and an existing payment method, exactly one ledger entry of
type withdrawal with negated amount and status pending is appended. -/
theorem c8_withdraw_spec (db : DB) (actor : Nat) (amount : ℚ) (paymentMethodId : Nat)
    (user : User) (hu : db.findUser actor = some user) (hv : 1 ≤ amount) :
    (user.wallet.balance < amount →
      withdrawRoute db actor amount paymentMethodId =
        (Resp.badRequest "Insufficient balance", db)) ∧
    (amount ≤ user.wallet.balance →
      ∀ pm, user.paymentMethods.find? (fun m => decide (m.id = paymentMethodId)) = some pm →
        (withdrawRoute db actor amount paymentMethodId).1 =
            Resp.ok "Withdrawal initiated successfully" ∧
        ∃ t, (withdrawRoute db actor amount paymentMethodId).2.transactions =
              db.transactions ++ [t] ∧
          t.type = TxType.withdrawal ∧ t.amount = -amount ∧
          t.status = TxStatus.pending ∧ t.user = actor) := by
  have hlt : ¬ amount < 1 := not_lt.mpr hv
  constructor
  · intro hb
    unfold withdrawRoute
    rw [if_neg hlt, hu]
    dsimp only
    rw [if_pos hb]
  · intro hbal pm hpm
    have hnb : ¬ user.wallet.balance < amount := not_lt.mpr hbal
    unfold withdrawRoute
    rw [if_neg hlt, hu]
    dsimp only
    rw [if_neg hnb, hpm]
    dsimp only
    refine ⟨rfl, (createTransaction db _).1, createTransaction_transactions db _, ?_, ?_, ?_, ?_⟩ <;>
      rw [createTransaction_fst]

/-- Witness for C8 at a concrete store: user 1 with cached balance 250 and
payment method 3; withdrawing 300 is rejected leaving the store unchanged,
withdrawing 50 creates the pending -50 withdrawal entry. -/
theorem c8_withdraw_spec_witness :
    (withdrawRoute dbLedger 1 300 3 = (Resp.badRequest "Insufficient balance", dbLedger)) ∧
    ((withdrawRoute dbLedger 1 50 3).1 = Resp.ok "Withdrawal initiated successfully" ∧
      ∃ t, (withdrawRoute dbLedger 1 50 3).2.transactions = dbLedger.transactions ++ [t] ∧
        t.type = TxType.withdrawal ∧ t.amount = -(50 : ℚ) ∧
        t.status = TxStatus.pending ∧ t.user = 1) := by
  constructor
  · exact (c8_withdraw_spec dbLedger 1 300 3 (mkUser 1 250) rfl (by norm_num)).1
      (by norm_num [mkUser])
  · exact (c8_withdraw_spec dbLedger 1 50 3 (mkUser 1 250) rfl (by norm_num)).2
      (by norm_num [mkUser]) { id := 3, name := "Visa", isDefault := true } rfl

/-- C2 (amended): accepting an application succeeds exactly when the job
exists and is active, the target application exists — regardless of the
application's current status, which the code never checks — and the actor is
the employer; on success the application is marked accepted, selectedWorker
becomes that application's worker, completion.startedAt is set to now and
the job's status becomes in_progress. -/
theorem c2_accept_application (db : DB) (jobId applicationId actor now : Nat) :
    (∀ job app, db.findJob jobId = some job →
      job.findApplication applicationId = some app →
      job.employer = actor → job.status = JobStatus.active →
      (updateApplicationRoute db jobId applicationId actor AppAction.accept now).1 =
          Resp.ok "Application accepted successfully" ∧
      ∃ job1,
        (updateApplicationRoute db jobId applicationId actor AppAction.accept now).2.findJob
            jobId = some job1 ∧
        job1.status = JobStatus.in_progress ∧
        job1.selectedWorker = some app.worker ∧
        job1.completion.startedAt = some now ∧
        job1.findApplication applicationId = some { app with status := AppStatus.accepted }) ∧
    (∀ msg,
      (updateApplicationRoute db jobId applicationId actor AppAction.accept now).1 =
          Resp.ok msg →
      ∃ job app, db.findJob jobId = some job ∧
        job.findApplication applicationId = some app ∧
        job.employer = actor ∧ job.status = JobStatus.active) := by
  constructor
  · intro job app hj ha he hs
    unfold updateApplicationRoute
    rw [hj]
    dsimp only
    rw [ha]
    dsimp only
    rw [if_neg (by simp [he]), if_neg (by simp [hs])]
    unfold Job.acceptApplication
    rw [ha]
    dsimp only
    refine ⟨rfl, _, findJob_updateJob db jobId job _ hj rfl, rfl, rfl, rfl, ?_⟩
    unfold Job.findApplication at ha ⊢
    dsimp only
    exact find?_map_modify Application.id (fun a => { a with status := AppStatus.accepted })
      (fun _ => rfl) job.applications applicationId app ha
  · intro msg hmsg
    unfold updateApplicationRoute at hmsg
    cases hj : db.findJob jobId with
    | none => rw [hj] at hmsg; simp at hmsg
    | some job =>
        rw [hj] at hmsg
        dsimp only at hmsg
        cases ha : job.findApplication applicationId with
        | none => rw [ha] at hmsg; simp at hmsg
        | some app =>
            rw [ha] at hmsg
            dsimp only at hmsg
            by_cases he : job.employer = actor
            · by_cases hs : job.status = JobStatus.active
              · exact ⟨job, app, rfl, ha, he, hs⟩
              · rw [if_neg (by simp [he]), if_pos (by simp [hs])] at hmsg
                simp at hmsg
            · rw [if_pos (by simp [he])] at hmsg
              simp at hmsg

/-- Witness for C2 (amended): on an active job whose only application (id 5,
worker 20) is pending, the employer's accept succeeds with the stated
effects. -/
theorem c2_accept_application_witness :
    (updateApplicationRoute
        { users := [], jobs := [mkJob 1 10 JobStatus.active [mkApplication 5 20 AppStatus.pending]],
          transactions := [], nextId := 50 } 1 5 10 AppAction.accept 99).1 =
      Resp.ok "Application accepted successfully" ∧
    ∃ job1,
      (updateApplicationRoute
          { users := [], jobs := [mkJob 1 10 JobStatus.active [mkApplication 5 20 AppStatus.pending]],
            transactions := [], nextId := 50 } 1 5 10 AppAction.accept 99).2.findJob 1 =
        some job1 ∧
      job1.status = JobStatus.in_progress ∧
      job1.selectedWorker = some 20 ∧
      job1.completion.startedAt = some 99 ∧
      job1.findApplication 5 =
        some { mkApplication 5 20 AppStatus.pending with status := AppStatus.accepted } := by
  exact (c2_accept_application
      { users := [], jobs := [mkJob 1 10 JobStatus.active [mkApplication 5 20 AppStatus.pending]],
        transactions := [], nextId := 50 } 1 5 10 99).1
    (mkJob 1 10 JobStatus.active [mkApplication 5 20 AppStatus.pending])
    (mkApplication 5 20 AppStatus.pending) rfl rfl rfl rfl

/-- C3 (amended): application is permitted exactly when the job is active,
unexpired, the applicant is not the employer, and the applicant has *no*
application sub-record on the job of any status — a retained withdrawn
application blocks re-application just like a pending one; whenever any
sub-record by the applicant exists, the apply route rejects with the 400
state-conflict and leaves the store unchanged.  (Re-application is possible
only after the DELETE endpoint has removed the sub-record.) -/
theorem c3_application_uniqueness (db : DB) (jobId w : Nat) (message : Option String)
    (proposedPay : Option ℚ) (now : Nat) (job : Job) (hj : db.findJob jobId = some job) :
    (job.canApply w now = true ↔
      (job.status = JobStatus.active ∧ job.isExpired now = false ∧ job.employer ≠ w ∧
        ∀ a ∈ job.applications, a.worker ≠ w)) ∧
    ((∃ a ∈ job.applications, a.worker = w) →
      applyRoute db jobId w message proposedPay now =
        (Resp.badRequest "Cannot apply for this job", db)) := by
  have hiff := canApply_iff job w now
  refine ⟨hiff, ?_⟩
  rintro ⟨a, ha, haw⟩
  have hcan : ¬ job.canApply w now = true := fun hc => (hiff.mp hc).2.2.2 a ha haw
  unfold applyRoute
  rw [hj]
  dsimp only
  rw [if_pos hcan]

/-- Witness for C3 (amended) on an active, unexpired job whose only
application, by worker 20, is withdrawn: the characterization instantiates,
and the apply route rejects worker 20. -/
theorem c3_application_uniqueness_witness :
    ((mkJob 1 10 JobStatus.active [mkApplication 5 20 AppStatus.withdrawn]).canApply 20 0 = true ↔
      ((mkJob 1 10 JobStatus.active [mkApplication 5 20 AppStatus.withdrawn]).status =
          JobStatus.active ∧
        (mkJob 1 10 JobStatus.active [mkApplication 5 20 AppStatus.withdrawn]).isExpired 0 =
          false ∧
        (mkJob 1 10 JobStatus.active [mkApplication 5 20 AppStatus.withdrawn]).employer ≠ 20 ∧
        ∀ a ∈ (mkJob 1 10 JobStatus.active
            [mkApplication 5 20 AppStatus.withdrawn]).applications, a.worker ≠ 20)) ∧
    applyRoute
        { users := [], jobs := [mkJob 1 10 JobStatus.active [mkApplication 5 20 AppStatus.withdrawn]],
          transactions := [], nextId := 50 } 1 20 none none 0 =
      (Resp.badRequest "Cannot apply for this job",
       { users := [], jobs := [mkJob 1 10 JobStatus.active [mkApplication 5 20 AppStatus.withdrawn]],
         transactions := [], nextId := 50 }) := by
  have h := c3_application_uniqueness
    { users := [], jobs := [mkJob 1 10 JobStatus.active [mkApplication 5 20 AppStatus.withdrawn]],
      transactions := [], nextId := 50 } 1 20 none none 0
    (mkJob 1 10 JobStatus.active [mkApplication 5 20 AppStatus.withdrawn]) rfl
  exact ⟨h.1, h.2 ⟨mkApplication 5 20 AppStatus.withdrawn, by simp [mkJob], rfl⟩⟩

/-- C7 (amended): on the PUT endpoint only ownership is enforced — a
non-owner withdrawing gets the 403 authorization error and the store is
unchanged, while the owner can withdraw an application of *any* status (the
pending check the claim asserts does not exist there); the pending check
exists only on the DELETE endpoint, which rejects a non-pending own
application with the 400 state-conflict. -/
theorem c7_withdraw_authorization (db : DB) (jobId applicationId actor now : Nat)
    (job : Job) (app : Application)
    (hj : db.findJob jobId = some job)
    (ha : job.findApplication applicationId = some app) :
    (app.worker ≠ actor →
      updateApplicationRoute db jobId applicationId actor AppAction.withdraw now =
        (Resp.forbidden "Only applicant can withdraw their application", db)) ∧
    (app.worker = actor →
      (updateApplicationRoute db jobId applicationId actor AppAction.withdraw now).1 =
          Resp.ok "Application withdrawn successfully" ∧
      ∃ job1,
        (updateApplicationRoute db jobId applicationId actor AppAction.withdraw now).2.findJob
            jobId = some job1 ∧
        job1.findApplication applicationId =
          some { app with status := AppStatus.withdrawn }) ∧
    (∀ ua, job.applications.find? (fun a => decide (a.worker = actor)) = some ua →
      ua.status ≠ AppStatus.pending →
      deleteApplicationRoute db jobId actor =
        (Resp.badRequest "Cannot withdraw application that is not pending", db)) := by
  refine ⟨?_, ?_, ?_⟩
  · intro hne
    unfold updateApplicationRoute
    rw [hj]
    dsimp only
    rw [ha]
    dsimp only
    rw [if_pos hne]
  · intro hown
    unfold updateApplicationRoute
    rw [hj]
    dsimp only
    rw [ha]
    dsimp only
    rw [if_neg (by simp [hown])]
    dsimp only
    refine ⟨rfl, _, findJob_updateJob db jobId job _ hj rfl, ?_⟩
    unfold Job.findApplication at ha ⊢
    dsimp only
    exact find?_map_modify Application.id (fun a => { a with status := AppStatus.withdrawn })
      (fun _ => rfl) job.applications applicationId app ha
  · intro ua hua hnp
    unfold deleteApplicationRoute
    rw [hj]
    dsimp only
    rw [hua]
    dsimp only
    rw [if_pos hnp]

/-- Witness for C7 (amended) on an active job whose application id 5 by
worker 20 is accepted: actor 99 gets the 403, owner 20's PUT withdraw
succeeds and marks it withdrawn, and owner 20's DELETE is rejected with the
400 because the application is not pending. -/
theorem c7_withdraw_authorization_witness :
    (updateApplicationRoute
        { users := [], jobs := [mkJob 1 10 JobStatus.active [mkApplication 5 20 AppStatus.accepted]],
          transactions := [], nextId := 50 } 1 5 99 AppAction.withdraw 7 =
      (Resp.forbidden "Only applicant can withdraw their application",
       { users := [], jobs := [mkJob 1 10 JobStatus.active [mkApplication 5 20 AppStatus.accepted]],
         transactions := [], nextId := 50 })) ∧
    ((updateApplicationRoute
        { users := [], jobs := [mkJob 1 10 JobStatus.active [mkApplication 5 20 AppStatus.accepted]],
          transactions := [], nextId := 50 } 1 5 20 AppAction.withdraw 7).1 =
      Resp.ok "Application withdrawn successfully") ∧
    (deleteApplicationRoute
        { users := [], jobs := [mkJob 1 10 JobStatus.active [mkApplication 5 20 AppStatus.accepted]],
          transactions := [], nextId := 50 } 1 20 =
      (Resp.badRequest "Cannot withdraw application that is not pending",
       { users := [], jobs := [mkJob 1 10 JobStatus.active [mkApplication 5 20 AppStatus.accepted]],
         transactions := [], nextId := 50 })) := by
  refine ⟨?_, ?_, ?_⟩
  · exact (c7_withdraw_authorization
      { users := [], jobs := [mkJob 1 10 JobStatus.active [mkApplication 5 20 AppStatus.accepted]],
        transactions := [], nextId := 50 } 1 5 99 7
      (mkJob 1 10 JobStatus.active [mkApplication 5 20 AppStatus.accepted])
      (mkApplication 5 20 AppStatus.accepted) rfl rfl).1 (by decide)
  · exact ((c7_withdraw_authorization
      { users := [], jobs := [mkJob 1 10 JobStatus.active [mkApplication 5 20 AppStatus.accepted]],
        transactions := [], nextId := 50 } 1 5 20 7
      (mkJob 1 10 JobStatus.active [mkApplication 5 20 AppStatus.accepted])
      (mkApplication 5 20 AppStatus.accepted) rfl rfl).2.1 rfl).1
  · exact (c7_withdraw_authorization
      { users := [], jobs := [mkJob 1 10 JobStatus.active [mkApplication 5 20 AppStatus.accepted]],
        transactions := [], nextId := 50 } 1 5 20 7
      (mkJob 1 10 JobStatus.active [mkApplication 5 20 AppStatus.accepted])
      (mkApplication 5 20 AppStatus.accepted) rfl rfl).2.2
      (mkApplication 5 20 AppStatus.accepted) rfl (by decide)

/-- C10: the two withdrawal endpoints differ observably.  A successful
DELETE removes the worker's pending sub-record entirely (applications
filtered, applicationsCount kept at the new length), after which canApply
holds again for that worker provided the job is still active, unexpired and
the worker is not the employer; a successful PUT withdraw retains the
sub-record with status withdrawn, after which canApply is false for that
worker. -/
theorem c10_delete_vs_put_withdraw (db : DB) (jobId w now : Nat) (job : Job)
    (hj : db.findJob jobId = some job) :
    (∀ ua, job.applications.find? (fun a => decide (a.worker = w)) = some ua →
      ua.status = AppStatus.pending →
      (deleteApplicationRoute db jobId w).1 = Resp.ok "Application withdrawn successfully" ∧
      ∃ job1, (deleteApplicationRoute db jobId w).2.findJob jobId = some job1 ∧
        job1.applications = job.applications.filter (fun a => decide (a.worker ≠ w)) ∧
        job1.applicationsCount = job1.applications.length ∧
        (job.status = JobStatus.active → job.isExpired now = false → job.employer ≠ w →
          job1.canApply w now = true)) ∧
    (∀ applicationId app, job.findApplication applicationId = some app → app.worker = w →
      (updateApplicationRoute db jobId applicationId w AppAction.withdraw now).1 =
          Resp.ok "Application withdrawn successfully" ∧
      ∃ job1,
        (updateApplicationRoute db jobId applicationId w AppAction.withdraw now).2.findJob
            jobId = some job1 ∧
        job1.findApplication applicationId = some { app with status := AppStatus.withdrawn } ∧
        job1.canApply w now = false) := by
  constructor
  · intro ua hua hp
    unfold deleteApplicationRoute
    rw [hj]
    dsimp only
    rw [hua]
    dsimp only
    rw [if_neg (by simp [hp])]
    refine ⟨rfl, _, findJob_updateJob db jobId job _ hj rfl, rfl, rfl, ?_⟩
    intro hact hexp hemp
    refine (canApply_iff _ w now).mpr ⟨hact, hexp, hemp, ?_⟩
    intro a ha
    have := (List.mem_filter.mp ha).2
    simpa using this
  · intro applicationId app ha haw
    unfold updateApplicationRoute
    rw [hj]
    dsimp only
    rw [ha]
    dsimp only
    rw [if_neg (by simp [haw])]
    dsimp only
    refine ⟨rfl, _, findJob_updateJob db jobId job _ hj rfl, ?_, ?_⟩
    · unfold Job.findApplication at ha ⊢
      dsimp only
      exact find?_map_modify Application.id (fun a => { a with status := AppStatus.withdrawn })
        (fun _ => rfl) job.applications applicationId app ha
    · have hmem : app ∈ job.applications := by
        unfold Job.findApplication at ha
        exact List.mem_of_find?_eq_some ha
      cases hc : Job.canApply
          { job with
            applications := job.applications.map
              (fun a => if a.id = applicationId
                then { a with status := AppStatus.withdrawn } else a) } w now with
      | false => rfl
      | true =>
          exfalso
          have h4 := ((canApply_iff _ w now).mp hc).2.2.2
          refine h4 (if app.id = applicationId
              then { app with status := AppStatus.withdrawn } else app)
            (List.mem_map.mpr ⟨app, hmem, rfl⟩) ?_
          by_cases hid : app.id = applicationId <;> simp [hid, haw]

/-- Witness for C10 on an active job whose application id 5 by worker 20 is
pending: after DELETE the worker can apply again; after PUT withdraw the
sub-record stays (withdrawn) and the worker cannot. -/
theorem c10_delete_vs_put_withdraw_witness :
    ((deleteApplicationRoute
        { users := [], jobs := [mkJob 1 10 JobStatus.active [mkApplication 5 20 AppStatus.pending]],
          transactions := [], nextId := 50 } 1 20).1 =
      Resp.ok "Application withdrawn successfully" ∧
     ∃ job1, (deleteApplicationRoute
        { users := [], jobs := [mkJob 1 10 JobStatus.active [mkApplication 5 20 AppStatus.pending]],
          transactions := [], nextId := 50 } 1 20).2.findJob 1 = some job1 ∧
        job1.applications = (mkJob 1 10 JobStatus.active
          [mkApplication 5 20 AppStatus.pending]).applications.filter
            (fun a => decide (a.worker ≠ 20)) ∧
        job1.applicationsCount = job1.applications.length ∧
        job1.canApply 20 0 = true) ∧
    ((updateApplicationRoute
        { users := [], jobs := [mkJob 1 10 JobStatus.active [mkApplication 5 20 AppStatus.pending]],
          transactions := [], nextId := 50 } 1 5 20 AppAction.withdraw 0).1 =
      Resp.ok "Application withdrawn successfully" ∧
     ∃ job1, (updateApplicationRoute
        { users := [], jobs := [mkJob 1 10 JobStatus.active [mkApplication 5 20 AppStatus.pending]],
          transactions := [], nextId := 50 } 1 5 20 AppAction.withdraw 0).2.findJob 1 =
          some job1 ∧
        job1.findApplication 5 =
          some { mkApplication 5 20 AppStatus.pending with status := AppStatus.withdrawn } ∧
        job1.canApply 20 0 = false) := by
  have h := c10_delete_vs_put_withdraw
    { users := [], jobs := [mkJob 1 10 JobStatus.active [mkApplication 5 20 AppStatus.pending]],
      transactions := [], nextId := 50 } 1 20 0
    (mkJob 1 10 JobStatus.active [mkApplication 5 20 AppStatus.pending]) rfl
  constructor
  · have h1 := h.1 (mkApplication 5 20 AppStatus.pending) rfl rfl
    rcases h1 with ⟨hok, job1, hfind, happs, hcount, hcan⟩
    exact ⟨hok, job1, hfind, happs, hcount, hcan rfl (by decide) (by decide)⟩
  · exact h.2 5 (mkApplication 5 20 AppStatus.pending) rfl rfl

/-- C5: when the employer completes an in_progress job (with a selected
worker that exists), the job ends completed with completion.completedAt set,
exactly one ledger entry is appended — type earned, amount equal to the
job's pay.amount (the accepted application's proposedPay plays no role:
nothing in the handler reads it), status completed, for the selected worker —
the job's payment sub-record becomes paid referencing that entry, and the
worker's stats.completedJobs grows by 1 and stats.totalEarnings by
pay.amount. -/
theorem c5_complete_job_payment (db : DB) (jobId actor now : Nat) (job : Job) (w : Nat)
    (worker : User)
    (hj : db.findJob jobId = some job)
    (he : job.employer = actor)
    (hs : job.status = JobStatus.in_progress)
    (hw : job.selectedWorker = some w)
    (hu : db.findUser w = some worker) :
    (completeJobRoute db jobId actor now).1 =
        Resp.ok "Job completed and payment processed successfully" ∧
    (∃ t, (completeJobRoute db jobId actor now).2.transactions = db.transactions ++ [t] ∧
      t.user = w ∧ t.type = TxType.earned ∧ t.amount = job.pay.amount ∧
      t.status = TxStatus.completed ∧ t.job = some job.id ∧
      (∃ job1, (completeJobRoute db jobId actor now).2.findJob jobId = some job1 ∧
        job1.status = JobStatus.completed ∧
        job1.completion.completedAt = some now ∧
        job1.payment.status = PaymentStatus.paid ∧
        job1.payment.amount = some job.pay.amount ∧
        job1.payment.transactionId = some t.id)) ∧
    (∃ worker1, (completeJobRoute db jobId actor now).2.findUser w = some worker1 ∧
      worker1.stats.completedJobs = worker.stats.completedJobs + 1 ∧
      worker1.stats.totalEarnings = worker.stats.totalEarnings + job.pay.amount) := by
  unfold completeJobRoute
  rw [hj]
  dsimp only
  rw [if_neg (by simp [he]), if_neg (by simp [hs]), hw]
  dsimp only
  split
  · rename_i worker1 heq
    have heq2 := heq
    simp only [findUser_updateJob] at heq2
    obtain ⟨u0, hu0, hstats⟩ := createTransaction_findUser_some _ _ _ _ heq2
    simp only [findUser_updateJob] at hu0
    rw [hu] at hu0
    have hu0w : worker = u0 := (Option.some.injEq _ _).mp hu0
    simp only [findJob_updateUser, updateUser_transactions, updateJob_transactions,
      createTransaction_transactions]
    exact ⟨trivial,
      ⟨_, rfl, (by rw [createTransaction_fst]), (by rw [createTransaction_fst]),
        (by rw [createTransaction_fst]), (by rw [createTransaction_fst]),
        (by rw [createTransaction_fst]),
        _, findJob_updateJob _ jobId _ _
            (by simp only [createTransaction_findJob]
                exact findJob_updateJob db jobId job _ hj (by rfl)) (by rfl),
        rfl, rfl, rfl, rfl, rfl⟩,
      _, findUser_updateUser _ w worker1 _ heq rfl,
      (by dsimp only; rw [hstats, hu0w]),
      (by dsimp only; rw [hstats, hu0w])⟩
  · rename_i heq
    exfalso
    simp only [findUser_updateJob] at heq
    have h0 := createTransaction_findUser_none _ _ _ heq
    simp only [findUser_updateJob] at h0
    rw [hu] at h0
    cases h0

/-- An in_progress job (id 1, employer 10, pay 25) whose accepted applicant
20 is the selected worker. -/
def jobInProgress : Job :=
  { mkJob 1 10 JobStatus.in_progress [mkApplication 5 20 AppStatus.accepted] with
    selectedWorker := some 20 }

/-- Worker 20 with 2 completed jobs and 7 earned so far. -/
def workerUser : User :=
  { id := 20, wallet := { balance := 0, currency := "USD" }, paymentMethods := [],
    stats := { completedJobs := 2, totalEarnings := 7, averageRating := 0, totalReviews := 0 } }

/-- Store for the completion scenario. -/
def dbComplete : DB :=
  { users := [workerUser], jobs := [jobInProgress], transactions := [], nextId := 30 }

/-- Witness for C5: employer 10 completes job 1 at time 99; one earned entry
of 25 for worker 20 is appended already completed, the job ends completed
and paid referencing it, and worker 20's stats move to 3 completed jobs and
32 earned. -/
theorem c5_complete_job_payment_witness :
    (completeJobRoute dbComplete 1 10 99).1 =
        Resp.ok "Job completed and payment processed successfully" ∧
    (∃ t, (completeJobRoute dbComplete 1 10 99).2.transactions =
          dbComplete.transactions ++ [t] ∧
      t.user = 20 ∧ t.type = TxType.earned ∧ t.amount = 25 ∧
      t.status = TxStatus.completed ∧ t.job = some 1 ∧
      (∃ job1, (completeJobRoute dbComplete 1 10 99).2.findJob 1 = some job1 ∧
        job1.status = JobStatus.completed ∧
        job1.completion.completedAt = some 99 ∧
        job1.payment.status = PaymentStatus.paid ∧
        job1.payment.amount = some 25 ∧
        job1.payment.transactionId = some t.id)) ∧
    (∃ worker1, (completeJobRoute dbComplete 1 10 99).2.findUser 20 = some worker1 ∧
      worker1.stats.completedJobs = 3 ∧
      worker1.stats.totalEarnings = 32) := by
  have h := c5_complete_job_payment dbComplete 1 10 99 jobInProgress 20 workerUser
    rfl rfl rfl rfl rfl
  refine ⟨h.1, h.2.1, ?_⟩
  obtain ⟨worker1, h1, h2, h3⟩ := h.2.2
  refine ⟨worker1, h1, h2, ?_⟩
  rw [h3]
  norm_num [workerUser, jobInProgress, mkJob]

/-! ## Invariant preservation over the lifecycle operations -/

/-- Members after a replace-by-id save are the saved document or prior
members (condition-generalized form). -/
theorem mem_map_replace_c {α : Type} (idf : α → Nat) (c : Nat) (l : List α) (x1 y : α)
    (hy : y ∈ l.map (fun z => if idf z = c then x1 else z)) : y = x1 ∨ y ∈ l := by
  rcases List.mem_map.mp hy with ⟨a, ha, hga⟩
  by_cases h : idf a = c
  · left; rw [if_pos h] at hga; exact hga.symm
  · right; rw [if_neg h] at hga; rw [← hga]; exact ha

/-- A jobs-collection invariant survives a job save whose document satisfies
it. -/
theorem updateJob_forall (db : DB) (j1 : Job) (P : Job → Prop)
    (hall : ∀ j ∈ db.jobs, P j) (hj1 : P j1) :
    ∀ j ∈ (db.updateJob j1).jobs, P j := by
  intro j hj
  unfold DB.updateJob at hj
  dsimp only at hj
  rcases mem_map_replace_c Job.id j1.id db.jobs j1 j hj with h | h
  · rw [h]; exact hj1
  · exact hall j h

/-- A successful findJob pins membership. -/
theorem findJob_mem (db : DB) (i : Nat) (j : Job) (hj : db.findJob i = some j) :
    j ∈ db.jobs := by
  unfold DB.findJob at hj
  exact List.mem_of_find?_eq_some hj

/-- The apply route preserves the selectedWorker/status invariant. -/
theorem applyRoute_swInv (db : DB) (jobId actor : Nat) (message : Option String)
    (proposedPay : Option ℚ) (now : Nat) (hall : ∀ j ∈ db.jobs, swInv j) :
    ∀ j ∈ (applyRoute db jobId actor message proposedPay now).2.jobs, swInv j := by
  unfold applyRoute
  split
  · exact hall
  · rename_i job heq
    split
    · exact hall
    · split
      · exact hall
      · rename_i job1 heq1
        dsimp only
        have hjob := hall job (findJob_mem db jobId job heq)
        refine updateJob_forall db job1 swInv hall ?_
        unfold Job.applyForJob at heq1
        split at heq1
        · cases heq1
        · injection heq1 with h1
          rw [← h1]
          exact hjob

/-- The apply route preserves the applicationsCount invariant. -/
theorem applyRoute_countInv (db : DB) (jobId actor : Nat) (message : Option String)
    (proposedPay : Option ℚ) (now : Nat) (hall : ∀ j ∈ db.jobs, countInv j) :
    ∀ j ∈ (applyRoute db jobId actor message proposedPay now).2.jobs, countInv j := by
  unfold applyRoute
  split
  · exact hall
  · rename_i job heq
    split
    · exact hall
    · split
      · exact hall
      · rename_i job1 heq1
        dsimp only
        refine updateJob_forall db job1 countInv hall ?_
        unfold Job.applyForJob at heq1
        split at heq1
        · cases heq1
        · injection heq1 with h1
          rw [← h1]

/-- The accept/reject/withdraw route preserves the selectedWorker/status
invariant: accept establishes it outright (worker set, status in_progress),
reject and withdraw touch only application statuses. -/
theorem updateApplicationRoute_swInv (db : DB) (jobId applicationId actor : Nat)
    (action : AppAction) (now : Nat) (hall : ∀ j ∈ db.jobs, swInv j) :
    ∀ j ∈ (updateApplicationRoute db jobId applicationId actor action now).2.jobs, swInv j := by
  unfold updateApplicationRoute
  split
  · exact hall
  · rename_i job heq
    have hjob := hall job (findJob_mem db jobId job heq)
    split
    · exact hall
    · rename_i application heqa
      split
      · -- accept
        split
        · exact hall
        · split
          · exact hall
          · split
            · exact hall
            · rename_i job1 heq1
              dsimp only
              refine updateJob_forall db _ swInv hall ?_
              unfold Job.acceptApplication at heq1
              split at heq1
              · cases heq1
              · injection heq1 with h1
                rw [← h1]
                simp [swInv]
      · -- reject
        split
        · exact hall
        · dsimp only
          refine updateJob_forall db _ swInv hall ?_
          exact hjob
      · -- withdraw
        split
        · exact hall
        · dsimp only
          refine updateJob_forall db _ swInv hall ?_
          exact hjob

/-- The accept/reject/withdraw route preserves the applicationsCount
invariant: none of the three branches changes the array length or the
counter. -/
theorem updateApplicationRoute_countInv (db : DB) (jobId applicationId actor : Nat)
    (action : AppAction) (now : Nat) (hall : ∀ j ∈ db.jobs, countInv j) :
    ∀ j ∈ (updateApplicationRoute db jobId applicationId actor action now).2.jobs,
      countInv j := by
  unfold updateApplicationRoute
  split
  · exact hall
  · rename_i job heq
    have hjob := hall job (findJob_mem db jobId job heq)
    split
    · exact hall
    · rename_i application heqa
      split
      · -- accept
        split
        · exact hall
        · split
          · exact hall
          · split
            · exact hall
            · rename_i job1 heq1
              dsimp only
              refine updateJob_forall db _ countInv hall ?_
              unfold Job.acceptApplication at heq1
              split at heq1
              · cases heq1
              · injection heq1 with h1
                rw [← h1]
                simpa [countInv] using hjob
      · -- reject
        split
        · exact hall
        · dsimp only
          refine updateJob_forall db _ countInv hall ?_
          simpa [countInv] using hjob
      · -- withdraw
        split
        · exact hall
        · dsimp only
          refine updateJob_forall db _ countInv hall ?_
          simpa [countInv] using hjob

/-- The delete-withdraw route preserves the selectedWorker/status
invariant. -/
theorem deleteApplicationRoute_swInv (db : DB) (jobId actor : Nat)
    (hall : ∀ j ∈ db.jobs, swInv j) :
    ∀ j ∈ (deleteApplicationRoute db jobId actor).2.jobs, swInv j := by
  unfold deleteApplicationRoute
  split
  · exact hall
  · rename_i job heq
    have hjob := hall job (findJob_mem db jobId job heq)
    split
    · exact hall
    · split
      · exact hall
      · dsimp only
        refine updateJob_forall db _ swInv hall ?_
        exact hjob

/-- The delete-withdraw route preserves the applicationsCount invariant: the
counter is reset to the filtered length. -/
theorem deleteApplicationRoute_countInv (db : DB) (jobId actor : Nat)
    (hall : ∀ j ∈ db.jobs, countInv j) :
    ∀ j ∈ (deleteApplicationRoute db jobId actor).2.jobs, countInv j := by
  unfold deleteApplicationRoute
  split
  · exact hall
  · rename_i job heq
    split
    · exact hall
    · split
      · exact hall
      · dsimp only
        refine updateJob_forall db _ countInv hall ?_
        rfl

/-- The complete-job route preserves the selectedWorker/status invariant:
an in_progress job satisfying the invariant has a selected worker, which is
retained as the status moves to completed. -/
theorem completeJobRoute_swInv (db : DB) (jobId actor now : Nat)
    (hall : ∀ j ∈ db.jobs, swInv j) :
    ∀ j ∈ (completeJobRoute db jobId actor now).2.jobs, swInv j := by
  unfold completeJobRoute
  split
  · exact hall
  · rename_i job heq
    have hjob := hall job (findJob_mem db jobId job heq)
    split
    · exact hall
    · split
      · exact hall
      · rename_i hemp hstat
        have hs : job.status = JobStatus.in_progress := not_not.mp hstat
        have hsw : job.selectedWorker ≠ none := hjob.mpr (Or.inl hs)
        split
        · rename_i heqw
          exact absurd heqw hsw
        · rename_i w heqw
          dsimp only
          split
          · rename_i worker hequ
            refine updateJob_forall _ _ swInv ?_ (by simp [swInv, heqw])
            intro j hj
            rw [createTransaction_jobs] at hj
            exact updateJob_forall db _ swInv hall (by simp [swInv, heqw]) j hj
          · refine updateJob_forall _ _ swInv ?_ (by simp [swInv, heqw])
            intro j hj
            rw [createTransaction_jobs] at hj
            exact updateJob_forall db _ swInv hall (by simp [swInv, heqw]) j hj

/-- The complete-job route preserves the applicationsCount invariant: it
never touches applications. -/
theorem completeJobRoute_countInv (db : DB) (jobId actor now : Nat)
    (hall : ∀ j ∈ db.jobs, countInv j) :
    ∀ j ∈ (completeJobRoute db jobId actor now).2.jobs, countInv j := by
  unfold completeJobRoute
  split
  · exact hall
  · rename_i job heq
    have hjob := hall job (findJob_mem db jobId job heq)
    split
    · exact hall
    · split
      · exact hall
      · split
        · dsimp only
          exact updateJob_forall db _ countInv hall hjob
        · rename_i w heqw
          dsimp only
          split
          · rename_i worker hequ
            refine updateJob_forall _ _ countInv ?_ hjob
            intro j hj
            rw [createTransaction_jobs] at hj
            exact updateJob_forall db _ countInv hall (by exact hjob) j hj
          · refine updateJob_forall _ _ countInv ?_ hjob
            intro j hj
            rw [createTransaction_jobs] at hj
            exact updateJob_forall db _ countInv hall (by exact hjob) j hj

/-- Job creation preserves the selectedWorker/status invariant: the new job
is active with no selected worker. -/
theorem createJobRoute_swInv (db : DB) (actor : Nat) (title companyName : String)
    (pay : Pay) (expiresAt : Nat) (hall : ∀ j ∈ db.jobs, swInv j) :
    ∀ j ∈ (createJobRoute db actor title companyName pay expiresAt).2.jobs, swInv j := by
  unfold createJobRoute
  dsimp only
  intro j hj
  rcases List.mem_append.mp hj with h | h
  · exact hall j h
  · rw [List.mem_singleton.mp h]
    simp [swInv]

/-- Job creation preserves the applicationsCount invariant: the new job has
no applications and counter 0. -/
theorem createJobRoute_countInv (db : DB) (actor : Nat) (title companyName : String)
    (pay : Pay) (expiresAt : Nat) (hall : ∀ j ∈ db.jobs, countInv j) :
    ∀ j ∈ (createJobRoute db actor title companyName pay expiresAt).2.jobs, countInv j := by
  unfold createJobRoute
  dsimp only
  intro j hj
  rcases List.mem_append.mp hj with h | h
  · exact hall j h
  · rw [List.mem_singleton.mp h]
    rfl

/-- C4 (amended): over the lifecycle operations proper — job creation,
apply, accept/reject/withdraw, delete-withdraw and complete-job — every
reachable job satisfies selectedWorker ≠ null iff status ∈ {in_progress,
completed}.  The claim as stated also includes the job-update endpoint,
which can break the invariant by writing status or selectedWorker directly
(see the counterexample), so it is excluded here. -/
theorem c4_selectedWorker_invariant (db : DB) (ops : List LifecycleOp)
    (hall : ∀ j ∈ db.jobs, swInv j) :
    ∀ j ∈ (runOps db ops).jobs, swInv j := by
  induction ops generalizing db with
  | nil => exact hall
  | cons op ops ih =>
      refine ih (stepOp db op) ?_
      cases op with
      | createOp actor title companyName pay expiresAt =>
          exact createJobRoute_swInv db actor title companyName pay expiresAt hall
      | applyOp jobId actor message proposedPay now =>
          exact applyRoute_swInv db jobId actor message proposedPay now hall
      | appActionOp jobId applicationId actor action now =>
          exact updateApplicationRoute_swInv db jobId applicationId actor action now hall
      | deleteAppOp jobId actor =>
          exact deleteApplicationRoute_swInv db jobId actor hall
      | completeOp jobId actor now =>
          exact completeJobRoute_swInv db jobId actor now hall

/-- Witness for C4 (amended): from a store holding one active job with a
pending application and its worker, accepting then completing preserves the
invariant on every job. -/
theorem c4_selectedWorker_invariant_witness :
    (runOps
        { users := [workerUser],
          jobs := [mkJob 1 10 JobStatus.active [mkApplication 5 20 AppStatus.pending]],
          transactions := [], nextId := 30 }
        [LifecycleOp.appActionOp 1 5 10 AppAction.accept 50,
         LifecycleOp.completeOp 1 10 99]).jobs.all
      (fun j => decide (swInv j)) = true := by
  refine List.all_eq_true.mpr ?_
  intro j hj
  refine decide_eq_true (c4_selectedWorker_invariant _ _ ?_ j hj)
  intro j2 hj2
  rw [List.mem_singleton.mp hj2]
  decide

/-- C9: over job creation, apply, accept/reject/withdraw, delete-withdraw
and complete-job, every reachable job keeps applicationsCount equal to the
length of its applications array. -/
theorem c9_applicationsCount_invariant (db : DB) (ops : List LifecycleOp)
    (hall : ∀ j ∈ db.jobs, countInv j) :
    ∀ j ∈ (runOps db ops).jobs, countInv j := by
  induction ops generalizing db with
  | nil => exact hall
  | cons op ops ih =>
      refine ih (stepOp db op) ?_
      cases op with
      | createOp actor title companyName pay expiresAt =>
          exact createJobRoute_countInv db actor title companyName pay expiresAt hall
      | applyOp jobId actor message proposedPay now =>
          exact applyRoute_countInv db jobId actor message proposedPay now hall
      | appActionOp jobId applicationId actor action now =>
          exact updateApplicationRoute_countInv db jobId applicationId actor action now hall
      | deleteAppOp jobId actor =>
          exact deleteApplicationRoute_countInv db jobId actor hall
      | completeOp jobId actor now =>
          exact completeJobRoute_countInv db jobId actor now hall

/-- Witness for C9: creating a job, applying (the fresh application gets id
60), rejecting that application and attempting a delete-withdraw keeps
applicationsCount equal to the array length on every job. -/
theorem c9_applicationsCount_invariant_witness :
    (runOps
        { users := [workerUser], jobs := [], transactions := [], nextId := 60 }
        [LifecycleOp.createOp 10 "T" "C" { amount := 25, currency := "USD" } 1000,
         LifecycleOp.applyOp 60 20 none none 0,
         LifecycleOp.appActionOp 60 61 10 AppAction.reject 0,
         LifecycleOp.deleteAppOp 60 20]).jobs.all
      (fun j => decide (countInv j)) = true := by
  refine List.all_eq_true.mpr ?_
  intro j hj
  refine decide_eq_true (c9_applicationsCount_invariant _ _ ?_ j hj)
  intro j2 hj2
  cases hj2

end JobPop
